import Mathlib

/-!
# Verification of the wasp CLI core (src/main.rs)

Shallow embedding of the credential lifecycle and deploy-protocol engine of
the wasp command-line client.  Pure functions of the Rust source are
translated into Lean functions; the external collaborators (ambient process
environment, OS keyring, serde JSON parsing of response bodies, the HTTP
transport) are passed in as explicit parameters or modelled as explicit
result values, so that every code path of the source appears as a branch of
a Lean definition.
-/

namespace Wasp

/-- The subset of `serde_json::Value` actually produced and stored by the
CLI core: `JsonValue::Null` and `JsonValue::String`. -/
inductive JValue where
  | null : JValue
  | str (s : String) : JValue
deriving DecidableEq, Repr

/-- Rust `input.split('=')` on the character list of the input string:
splits at every `'='`, keeping empty segments, and on the empty string
yields one empty segment (Rust `"".split('=')` yields `[""]`). -/
def splitEq : List Char → List (List Char)
  | [] => [[]]
  | c :: cs =>
    if c = '=' then
      [] :: splitEq cs
    else
      match splitEq cs with
      | [] => [[c]]
      | p :: ps => (c :: p) :: ps

/-- `splitEq` never returns the empty list: Rust's `split` always yields at
least one (possibly empty) segment. -/
theorem splitEq_ne_nil (l : List Char) : splitEq l ≠ [] := by
  cases l with
  | nil => simp [splitEq]
  | cons c cs =>
    simp only [splitEq]
    by_cases h : c = '='
    · simp [h]
    · simp only [h, if_false]
      cases splitEq cs <;> simp

/-- `fn parse_env(input: &str) -> Result<(String, JsonValue), String>` from
src/main.rs.  `getEnv` is the ambient process environment
(`std::env::var`, modelled as `Option`-valued since the only use is
"present or not").  The Rust code takes the first two segments of
`input.split('=')`: the first is the name (its absence yields the
`"Invalid env"` error), the second — when present — is the value, mapped to
`JsonValue::Null` when empty and to a JSON string otherwise; when there is
no second segment the value is read from the ambient environment, failing
with `"{name} not found"` when unset. -/
def parse_env (getEnv : String → Option String) (input : String) :
    Except String (String × JValue) :=
  match splitEq input.data with
  | [] => .error "Invalid env"
  | name :: rest =>
    let nameS := String.mk name
    match rest with
    | v :: _ =>
      if v.isEmpty then
        .ok (nameS, .null)
      else
        .ok (nameS, .str (String.mk v))
    | [] =>
      match getEnv nameS with
      | some v => .ok (nameS, .str v)
      | none => .error (nameS ++ " not found")

/-! ## Credential Store (`struct Client`, `impl Client` in src/main.rs) -/

/-- The stored credential, `struct KeyringEntry` of src/main.rs.
`SystemTime` instants are modelled as natural numbers (seconds since an
arbitrary epoch); the only operations the source performs on them are the
order comparison in `get_password` and the addition in `set`. -/
structure KeyringEntry where
  access_token : String
  expires_at : Nat
deriving DecidableEq, Repr

/-- Outcome of `keyring::Keyring::get_password` together with the
`serde_json::from_str::<KeyringEntry>` decode of the stored string, the two
external steps of `Client::get_password`: the OS keyring either has no
password, fails with another keyring error, or yields a string which either
decodes to a `KeyringEntry` or fails to decode. -/
inductive KeyringRead where
  | noPasswordFound : KeyringRead
  | otherKeyringError (msg : String) : KeyringRead
  | decodeError (msg : String) : KeyringRead
  | found (entry : KeyringEntry) : KeyringRead
deriving DecidableEq, Repr

/-- `NoPasswordFound` message for the default account. -/
def noAccountDefaultMsg : String :=
  "No account found. Log in with `wasp login USERNAME`."

/-- `NoPasswordFound` message for a named (non-default) account. -/
def noAccountNamedMsg (account : String) : String :=
  "No account found. Log in with `wasp login USERNAME --account " ++ account ++ "`."

/-- Message of the expired-token error of `Client::get_password`. -/
def tokenExpiredMsg : String :=
  "Login token is expired. Log in again with `wasp login`."

/-- `Client::get_password` of src/main.rs.  `account` is the client's
account field, `read` the keyring+decode outcome, `now` the value of
`SystemTime::now()` at the comparison.  The source maps
`NoPasswordFound` to an account-dependent message, any other keyring or
decode error to its own message, and then rejects the entry with the
expired-token message when `entry.expires_at < now`; otherwise it returns
the raw stored `access_token`. -/
def get_password (account : String) (read : KeyringRead) (now : Nat) :
    Except String String :=
  match read with
  | .noPasswordFound =>
    if account = "default" then
      .error noAccountDefaultMsg
    else
      .error (noAccountNamedMsg account)
  | .otherKeyringError msg => .error msg
  | .decodeError msg => .error msg
  | .found entry =>
    if entry.expires_at < now then
      .error tokenExpiredMsg
    else
      .ok entry.access_token

/-! ## API Client (`Client::client`, `Client::url`, `Client::get`,
`Client::post` of src/main.rs) -/

/-- The authenticated `reqwest::Client` produced by `Client::client`: the
observable configuration is the default `Authorization` header. -/
structure AuthedClient where
  authorization : String
deriving DecidableEq, Repr

/-- HTTP method of a request builder. -/
inductive Method where
  | GET : Method
  | POST : Method
deriving DecidableEq, Repr

/-- The `reqwest::RequestBuilder` returned by `Client::get` / `Client::post`:
a request that has been configured but not sent. -/
structure RequestBuilder where
  method : Method
  url : String
  authorization : String
deriving DecidableEq, Repr

/-- `Client::client` of src/main.rs: first obtains the token via
`Client::get_password` (propagating its error), then builds a client whose
default `Authorization` header is `Bearer <token>`. -/
def Client.client (account : String) (read : KeyringRead) (now : Nat) :
    Except String AuthedClient :=
  match get_password account read now with
  | .error e => .error e
  | .ok access_token => .ok ⟨"Bearer " ++ access_token⟩

/-- `Client::url` of src/main.rs: concatenates the service base URL and the
path verbatim. -/
def Client.url (service path : String) : String := service ++ path

/-- `Client::get` of src/main.rs: builds the client (which reads the
credential store) and returns a GET request builder for `url(path)`. -/
def Client.get (service account : String) (read : KeyringRead) (now : Nat)
    (path : String) : Except String RequestBuilder :=
  match Client.client account read now with
  | .error e => .error e
  | .ok c => .ok ⟨.GET, Client.url service path, c.authorization⟩

/-- `Client::post` of src/main.rs: builds the client (which reads the
credential store) and returns a POST request builder for `url(path)`. -/
def Client.post (service account : String) (read : KeyringRead) (now : Nat)
    (path : String) : Except String RequestBuilder :=
  match Client.client account read now with
  | .error e => .error e
  | .ok c => .ok ⟨.POST, Client.url service path, c.authorization⟩

/-! ## Error Normalizer (`fn handle_error` of src/main.rs) -/

/-- An HTTP response as observed by `handle_error`: its status code and its
body text (`response.text()`). -/
structure HttpResponse where
  status : Nat
  body : String
deriving DecidableEq, Repr

/-- `reqwest::StatusCode::is_success`: status in 200..=299. -/
def isSuccessStatus (status : Nat) : Bool :=
  200 ≤ status && status < 300

/-- `fn handle_error(step, response)` of src/main.rs.  `parseErrorBody`
models `serde_json::from_str::<ErrorResponse>` (an external crate): it
returns the `error` string field when the body parses as
`{ "error": string }` and `none` otherwise.  On a success status the
function returns `Ok(())` without touching the body; otherwise the error
message is the parsed `error` field when the parse succeeds, else the raw
body text, prefixed in both cases with `step`. -/
def handle_error (parseErrorBody : String → Option String) (step : String)
    (response : HttpResponse) : Except String Unit :=
  if isSuccessStatus response.status then
    .ok ()
  else
    match parseErrorBody response.body with
    | some err => .error (step ++ err)
    | none => .error (step ++ response.body)

/-! ## Deploy Workflow (`maybe_upload`, `create`, `configure` of
src/main.rs) -/

/-- `fn maybe_upload(client, module)` of src/main.rs.  `fsExists` models
`std::path::Path::new(&module).exists()`; `uploadId` models the module id
returned by `do_upload` for a given path.  The second component of the
result is the list of paths for which `do_upload` (one `POST /compile`
round-trip each) was invoked, in order. -/
def maybe_upload (fsExists : String → Bool) (uploadId : String → String)
    (module : Option String) : Option String × List String :=
  match module with
  | some m =>
    if fsExists m then
      (some (uploadId m), [m])
    else
      (some m, [])
  | none => (none, [])

/-- An emitted wire value: a JSON string, a JSON value from the env map, or
the serialized env object itself. -/
inductive WireValue where
  | vstr (s : String) : WireValue
  | vobj (fields : List (String × JValue)) : WireValue
deriving DecidableEq, Repr

/-- `struct ConfigureOpts` of src/main.rs: the `--module`, `--function` and
repeated `--env` options, the latter in argument order as parsed by
`parse_env`. -/
structure ConfigureOpts where
  module : Option String
  function : Option String
  env : List (String × JValue)
deriving DecidableEq, Repr

/-- `std::collections::HashMap::insert` restricted to the observable
contents, on an association-list model of the map: an existing entry for
the key has its value replaced, otherwise the pair is appended. -/
def hashMapInsert (m : List (String × JValue)) (k : String) (v : JValue) :
    List (String × JValue) :=
  if m.any (fun p => p.1 == k) then
    m.map (fun p => if p.1 == k then (k, v) else p)
  else
    m ++ [(k, v)]

/-- `configuration.env.into_iter().collect::<HashMap<_, _>>()` of `create`
and `configure`: inserts the parsed `(name, value)` pairs in argument
order, later inserts for the same key overwriting earlier ones. -/
def collectEnv (env : List (String × JValue)) : List (String × JValue) :=
  env.foldl (fun m p => hashMapInsert m p.1 p.2) []

/-- `struct CreateBody` of `create` in src/main.rs. -/
structure CreateBody where
  host : String
  customer_id : String
  module : Option String
  function : Option String
  env : List (String × JValue)
deriving DecidableEq, Repr

/-- `struct ConfigureBody` of `configure` in src/main.rs. -/
structure ConfigureBody where
  module : Option String
  function : Option String
  env : List (String × JValue)
deriving DecidableEq, Repr

/-- serde serialization of `CreateBody` to the JSON object sent on the
wire, as the ordered list of emitted (field, value) pairs: `module` and
`function` carry `#[serde(skip_serializing_if = "Option::is_none")]` and
`env` carries `#[serde(skip_serializing_if = "HashMap::is_empty")]`, so an
absent option and an empty map are omitted entirely. -/
def serializeCreateBody (b : CreateBody) : List (String × WireValue) :=
  [("host", .vstr b.host), ("customer_id", .vstr b.customer_id)]
    ++ (match b.module with
        | some m => [("module", WireValue.vstr m)]
        | none => [])
    ++ (match b.function with
        | some f => [("function", WireValue.vstr f)]
        | none => [])
    ++ (if b.env.isEmpty then [] else [("env", .vobj b.env)])

/-- serde serialization of `ConfigureBody`, with the same
`skip_serializing_if` attributes as `CreateBody` on all three fields. -/
def serializeConfigureBody (b : ConfigureBody) : List (String × WireValue) :=
  (match b.module with
    | some m => [("module", WireValue.vstr m)]
    | none => [])
    ++ (match b.function with
        | some f => [("function", WireValue.vstr f)]
        | none => [])
    ++ (if b.env.isEmpty then [] else [("env", .vobj b.env)])

/-- Body construction of `fn create` in src/main.rs: resolves the module
via `maybe_upload`, keeps `function` as given, and collects the env pairs
into the map.  The second component is the upload trace of
`maybe_upload`. -/
def createBody (fsExists : String → Bool) (uploadId : String → String)
    (host customer_id : String) (configuration : ConfigureOpts) :
    CreateBody × List String :=
  let resolved := maybe_upload fsExists uploadId configuration.module
  (⟨host, customer_id, resolved.1, configuration.function,
    collectEnv configuration.env⟩, resolved.2)

/-- Body construction of `fn configure` in src/main.rs. -/
def configureBody (fsExists : String → Bool) (uploadId : String → String)
    (configuration : ConfigureOpts) : ConfigureBody × List String :=
  let resolved := maybe_upload fsExists uploadId configuration.module
  (⟨resolved.1, configuration.function, collectEnv configuration.env⟩,
    resolved.2)

/-! ## CLI defaults (`struct SourceOpts` of src/main.rs) -/

/-- The `default_value` of the `--api` option of `SourceOpts`. -/
def defaultApi : String := "https://api.wasp.ws"

/-- The `default_value` of the `--account` option of `SourceOpts`. -/
def defaultAccount : String := "default"

/-! ## Lemmas about `splitEq` -/

/-- A string without `'='` splits into the single segment that is the whole
string. -/
theorem splitEq_of_not_mem (l : List Char) (h : '=' ∉ l) : splitEq l = [l] := by
  induction l with
  | nil => rfl
  | cons c cs ih =>
    have hc : ¬ c = '=' := fun hc => h (hc ▸ List.mem_cons_self c cs)
    have hcs : '=' ∉ cs := fun hm => h (List.mem_cons_of_mem _ hm)
    simp [splitEq, hc, ih hcs]

/-- Splitting at the first `'='`: when the prefix has no `'='`, the first
segment is that prefix and the rest is the split of the remainder. -/
theorem splitEq_append (l₁ l₂ : List Char) (h : '=' ∉ l₁) :
    splitEq (l₁ ++ '=' :: l₂) = l₁ :: splitEq l₂ := by
  induction l₁ with
  | nil => simp [splitEq]
  | cons c cs ih =>
    have hc : ¬ c = '=' := fun hc => h (hc ▸ List.mem_cons_self c cs)
    have hcs : '=' ∉ cs := fun hm => h (List.mem_cons_of_mem _ hm)
    simp [splitEq, hc, ih hcs]

/-- A nonempty string has a nonempty character list. -/
theorem data_ne_nil_of_ne_empty (s : String) (h : s ≠ "") : s.data ≠ [] :=
  fun hd => h (String.ext hd)

/-! ## Claims about `parse_env` (C1, C10) -/

/-- C1, counterexample: the token `A=b=c` has the form `NAME=VALUE` with
`NAME = "A"` (the text before the first `'='`) and `VALUE = "b=c"`, yet
`parse_env` does not return the pair `("A", "b=c")`: it returns
`("A", "b")`, because the Rust source reads only the first two segments of
`input.split('=')` and discards everything after the second `'='`. -/
theorem wasp_C1_counterexample :
    parse_env (fun _ => none) ("A" ++ "=" ++ "b=c") = .ok ("A", .str "b")
    ∧ parse_env (fun _ => none) ("A" ++ "=" ++ "b=c") ≠ .ok ("A", .str "b=c") := by
  refine ⟨rfl, fun h => ?_⟩
  simp [parse_env, splitEq] at h

/-- C1, amended: for a name without `'='`, the token `NAME=VALUE` with a
nonempty `'='`-free `VALUE` parses to (`NAME`, JSON string `VALUE`) — in
general the value is the segment between the first and the second `'='`,
text after a second `'='` being discarded; the token `NAME=` parses to
(`NAME`, JSON null); the bare token `NAME` parses to (`NAME`, JSON string
of the ambient environment value) when `NAME` is set and fails with
`"NAME not found"` when unset. -/
theorem wasp_C1_amended (getEnv : String → Option String) (name value : String)
    (hn : '=' ∉ name.data) (hv : '=' ∉ value.data) (hne : value ≠ "") :
    parse_env getEnv (name ++ "=" ++ value) = .ok (name, .str value)
    ∧ parse_env getEnv (name ++ "=") = .ok (name, .null)
    ∧ (∀ v, getEnv name = some v → parse_env getEnv name = .ok (name, .str v))
    ∧ (getEnv name = none → parse_env getEnv name = .error (name ++ " not found")) := by
  have hd1 : (name ++ "=" ++ value).data = name.data ++ '=' :: value.data := by
    show (name.data ++ ['=']) ++ value.data = name.data ++ '=' :: value.data
    simp
  have hd2 : (name ++ "=").data = name.data ++ '=' :: ([] : List Char) := by
    show name.data ++ ['='] = _
    simp
  refine ⟨?_, ?_, ?_, ?_⟩
  · rw [parse_env, hd1, splitEq_append _ _ hn, splitEq_of_not_mem _ hv]
    have hvne : value.data ≠ [] := data_ne_nil_of_ne_empty value hne
    cases hval : value.data with
    | nil => exact absurd hval hvne
    | cons c cs =>
      simp [← hval]
      exact hvne
  · rw [parse_env, hd2, splitEq_append _ _ hn]
    rfl
  · intro v hv'
    rw [parse_env, splitEq_of_not_mem _ hn]
    simp [hv']
  · intro hv'
    rw [parse_env, splitEq_of_not_mem _ hn]
    simp [hv']

/-- C1, witness: concrete evaluations of the amended claim at the token
`FOO=bar`, in an ambient environment where `FOO` is set to `baz`. -/
theorem wasp_C1_amended_witness :
    parse_env (fun s => if s = "FOO" then some "baz" else none) ("FOO" ++ "=" ++ "bar")
      = .ok ("FOO", .str "bar") :=
  (wasp_C1_amended (fun s => if s = "FOO" then some "baz" else none) "FOO" "bar"
    (by decide) (by decide) (by decide)).1

/-- C10: `parse_env` is total and its `"Invalid env"` branch is
unreachable: `splitEq` always yields at least one segment, so for every
input and every ambient environment the result is either a parsed pair or
the `"NAME not found"` error — never the `"Invalid env"` error (and, the
function being structurally total, never a panic). -/
theorem wasp_C10_no_invalid_env (getEnv : String → Option String) (input : String) :
    ((∃ p, parse_env getEnv input = .ok p)
      ∨ (∃ name, parse_env getEnv input = .error (name ++ " not found")))
    ∧ parse_env getEnv input ≠ .error "Invalid env" := by
  rw [parse_env]
  cases hs : splitEq input.data with
  | nil => exact absurd hs (splitEq_ne_nil input.data)
  | cons name rest =>
    cases rest with
    | cons v vs =>
      by_cases hv : v.isEmpty <;> simp [hv]
    | nil =>
      cases he : getEnv (String.mk name) with
      | some v => simp [he]
      | none =>
        simp only [he]
        refine ⟨Or.inr ⟨String.mk name, rfl⟩, fun h => ?_⟩
        have hdata := congrArg String.data (Except.error.inj h)
        have hsuf : (String.mk name ++ " not found").data.reverse
            = ("Invalid env" : String).data.reverse := by rw [hdata]
        simp only [show (String.mk name ++ " not found").data
            = name ++ (" not found" : String).data from rfl,
          List.reverse_append] at hsuf
        simp at hsuf

/-! ## Claims about the Credential Store (C2, C7) -/

/-- C2, counterexample: the source rejects an entry only when
`entry.expires_at < SystemTime::now()` — strictly.  At the boundary
`expires_at = now` (here both `5`) the claimed condition `expires_at <= now`
holds, yet `get_password` succeeds and returns the token instead of failing
with the expired-token error. -/
theorem wasp_C2_counterexample :
    (5 : Nat) ≤ 5
    ∧ get_password "default" (.found ⟨"tok", 5⟩) 5 = .ok "tok"
    ∧ get_password "default" (.found ⟨"tok", 5⟩) 5 ≠ .error tokenExpiredMsg := by
  refine ⟨le_refl 5, rfl, fun h => ?_⟩
  simp [get_password] at h

/-- C2, amended: `get()` fails with the expired-token error (instructing
re-login) whenever `expires_at < now` — strictly in the past; an entry
whose `expires_at` is strictly in the past is never returned.  When
`now ≤ expires_at` (including the boundary `expires_at = now`) it succeeds
and returns the raw stored token string. -/
theorem wasp_C2_amended (account : String) (entry : KeyringEntry) (now : Nat) :
    (entry.expires_at < now →
      get_password account (.found entry) now = .error tokenExpiredMsg)
    ∧ (now ≤ entry.expires_at →
      get_password account (.found entry) now = .ok entry.access_token) := by
  constructor
  · intro h
    simp [get_password, h]
  · intro h
    simp [get_password, Nat.not_lt.mpr h]

/-- C2, witness: concrete evaluations of the amended claim — an entry
expired at time 3 read at time 5 fails with the expired-token error, and an
entry expiring at time 9 read at time 5 yields the stored token. -/
theorem wasp_C2_amended_witness :
    get_password "default" (.found ⟨"tok", 3⟩) 5 = .error tokenExpiredMsg
    ∧ get_password "default" (.found ⟨"tok", 9⟩) 5 = .ok "tok" :=
  ⟨(wasp_C2_amended "default" ⟨"tok", 3⟩ 5).1 (by decide),
   (wasp_C2_amended "default" ⟨"tok", 9⟩ 5).2 (by decide)⟩

/-- The string `pat` occurs contiguously inside the string `s`. -/
def strContains (pat s : String) : Prop :=
  ∃ pre post, s.data = pre ++ pat.data ++ post

/-- C7: when the keyring has no entry, `get_password` fails with the
generic log-in instruction for the default account, and for any other
account with a message that contains the text `--account NAME` with that
account name. -/
theorem wasp_C7_not_found_messages (now : Nat) :
    get_password "default" .noPasswordFound now = .error noAccountDefaultMsg
    ∧ (∀ account, account ≠ "default" →
        get_password account .noPasswordFound now = .error (noAccountNamedMsg account)
        ∧ strContains ("--account " ++ account) (noAccountNamedMsg account)) := by
  refine ⟨by simp [get_password], fun account hacc => ⟨by simp [get_password, hacc], ?_⟩⟩
  refine ⟨("No account found. Log in with `wasp login USERNAME " : String).data,
    ("`." : String).data, ?_⟩
  show ("No account found. Log in with `wasp login USERNAME --account " : String).data
      ++ account.data ++ ("`." : String).data
    = ("No account found. Log in with `wasp login USERNAME " : String).data
      ++ (("--account " : String).data ++ account.data) ++ ("`." : String).data
  simp

/-- C7, witness: concrete evaluation for the account name `alice`. -/
theorem wasp_C7_witness :
    get_password "alice" .noPasswordFound 0 = .error (noAccountNamedMsg "alice")
    ∧ strContains ("--account " ++ "alice") (noAccountNamedMsg "alice") :=
  (wasp_C7_not_found_messages 0).2 "alice" (by decide)

/-! ## Claims about the API Client (C8) and the CLI defaults (C6) -/

/-- C8: `Client::get` and `Client::post` both build the authenticated
client first, which invokes the Credential Store read `get_password`; when
that read fails — token missing, malformed, or expired — the call fails
immediately with the very same credential error, and no request builder
(hence no HTTP request) is ever produced. -/
theorem wasp_C8_credential_failure (service account path : String)
    (read : KeyringRead) (now : Nat) (e : String)
    (h : get_password account read now = .error e) :
    Client.get service account read now path = .error e
    ∧ Client.post service account read now path = .error e := by
  constructor
  · rw [Client.get, Client.client, h]
  · rw [Client.post, Client.client, h]

/-- C8, witness: a GET against a keyring with no stored entry fails with
the not-logged-in error before any request is built. -/
theorem wasp_C8_witness :
    Client.get "https://api.wasp.ws" "default" .noPasswordFound 0 "/hosts/h"
      = .error noAccountDefaultMsg :=
  (wasp_C8_credential_failure "https://api.wasp.ws" "default" "/hosts/h"
    .noPasswordFound 0 noAccountDefaultMsg rfl).1

/-- C6, counterexample: the `default_value` of the `--api` option in the
source is `https://api.wasp.ws`, not `https://api.example-platform.test`. -/
theorem wasp_C6_counterexample :
    defaultApi ≠ "https://api.example-platform.test" := by
  decide

/-- C6, amended: when no `--api` option is supplied, the service base URL
against which all requests are composed defaults to
`https://api.wasp.ws`; a request path is appended to it verbatim. -/
theorem wasp_C6_amended :
    defaultApi = "https://api.wasp.ws"
    ∧ Client.url defaultApi "/hosts" = "https://api.wasp.ws/hosts" := by
  constructor
  · rfl
  · rfl

/-! ## Claims about the Deploy Workflow (C3, C4, C5) -/

/-- C3: `maybe_upload` given an absent module reference returns absent with
no upload; given a string naming an existing local path it performs exactly
one upload call (the singleton trace `[m]`) and returns the server-issued
module id `uploadId m`; given a string that names no existing local path it
returns the string unchanged with an empty upload trace (zero network
calls). -/
theorem wasp_C3_resolve_module (fsExists : String → Bool)
    (uploadId : String → String) :
    maybe_upload fsExists uploadId none = (none, [])
    ∧ (∀ m, (fsExists m = true →
          maybe_upload fsExists uploadId (some m) = (some (uploadId m), [m]))
        ∧ (fsExists m = false →
          maybe_upload fsExists uploadId (some m) = (some m, []))) := by
  refine ⟨rfl, fun m => ⟨fun h => ?_, fun h => ?_⟩⟩
  · simp [maybe_upload, h]
  · simp [maybe_upload, h]

/-- C3, witness: with a filesystem on which only `./app.wasm` exists and a
server issuing id `m_42` for it, the three behaviours at concrete inputs. -/
theorem wasp_C3_witness :
    maybe_upload (fun s => s == "./app.wasm") (fun _ => "m_42") none = (none, [])
    ∧ maybe_upload (fun s => s == "./app.wasm") (fun _ => "m_42") (some "./app.wasm")
        = (some "m_42", ["./app.wasm"])
    ∧ maybe_upload (fun s => s == "./app.wasm") (fun _ => "m_42") (some "m_7")
        = (some "m_7", []) :=
  ⟨(wasp_C3_resolve_module (fun s => s == "./app.wasm") (fun _ => "m_42")).1,
   ((wasp_C3_resolve_module (fun s => s == "./app.wasm") (fun _ => "m_42")).2
      "./app.wasm").1 (by decide),
   ((wasp_C3_resolve_module (fun s => s == "./app.wasm") (fun _ => "m_42")).2
      "m_7").2 (by decide)⟩

/-- C4: `handle_error` returns success for every response whose status
indicates success, regardless of the body (the body is never consulted);
for a non-success response the error message is the `error` field of the
parsed `{ "error": string }` body when that parse succeeds, otherwise the
raw body text verbatim, prefixed in both cases with the caller-supplied
context string. -/
theorem wasp_C4_handle_error (parseErrorBody : String → Option String)
    (step : String) (status : Nat) (body : String) :
    (isSuccessStatus status = true →
      ∀ b, handle_error parseErrorBody step ⟨status, b⟩ = .ok ())
    ∧ (isSuccessStatus status = false →
        (∀ e, parseErrorBody body = some e →
          handle_error parseErrorBody step ⟨status, body⟩ = .error (step ++ e))
        ∧ (parseErrorBody body = none →
          handle_error parseErrorBody step ⟨status, body⟩ = .error (step ++ body))) := by
  refine ⟨fun h b => ?_, fun h => ⟨fun e he => ?_, fun he => ?_⟩⟩
  · simp [handle_error, h]
  · simp [handle_error, h, he]
  · simp [handle_error, h, he]

/-- C4, witness: status 200 with any body succeeds; status 400 with a body
parsing to `{ "error": "bad host" }` yields the parsed message under the
caller prefix; status 500 with the unparseable body `oops` yields the raw
body under the caller prefix. -/
theorem wasp_C4_witness :
    handle_error (fun _ => some "ignored") "" ⟨200, "{ anything }"⟩ = .ok ()
    ∧ handle_error (fun _ => some "bad host") "Login error: " ⟨400, "x"⟩
        = .error ("Login error: " ++ "bad host")
    ∧ handle_error (fun _ => none) "" ⟨500, "oops"⟩ = .error ("" ++ "oops") :=
  ⟨(wasp_C4_handle_error (fun _ => some "ignored") "" 200 "").1 (by decide)
      "{ anything }",
   ((wasp_C4_handle_error (fun _ => some "bad host") "Login error: " 400 "x").2
      (by decide)).1 "bad host" rfl,
   ((wasp_C4_handle_error (fun _ => none) "" 500 "oops").2 (by decide)).2 rfl⟩

/-- C5: in the serialized Create and Configure payloads an absent module
reference and an absent entry function are omitted entirely (no field is
emitted, in particular no null), an empty environment map is omitted, and
conversely every present field is transmitted. -/
theorem wasp_C5_omitted_fields (b : CreateBody) (c : ConfigureBody) :
    (b.module = none → "module" ∉ (serializeCreateBody b).map Prod.fst)
    ∧ (b.function = none → "function" ∉ (serializeCreateBody b).map Prod.fst)
    ∧ (b.env = [] → "env" ∉ (serializeCreateBody b).map Prod.fst)
    ∧ (∀ m, b.module = some m → ("module", .vstr m) ∈ serializeCreateBody b)
    ∧ (∀ f, b.function = some f → ("function", .vstr f) ∈ serializeCreateBody b)
    ∧ (b.env ≠ [] → ("env", .vobj b.env) ∈ serializeCreateBody b)
    ∧ (c.module = none → "module" ∉ (serializeConfigureBody c).map Prod.fst)
    ∧ (c.function = none → "function" ∉ (serializeConfigureBody c).map Prod.fst)
    ∧ (c.env = [] → "env" ∉ (serializeConfigureBody c).map Prod.fst)
    ∧ (∀ m, c.module = some m → ("module", .vstr m) ∈ serializeConfigureBody c)
    ∧ (∀ f, c.function = some f → ("function", .vstr f) ∈ serializeConfigureBody c)
    ∧ (c.env ≠ [] → ("env", .vobj c.env) ∈ serializeConfigureBody c) := by
  obtain ⟨bh, bc, bm, bf, be⟩ := b
  obtain ⟨cm, cf, ce⟩ := c
  cases bm <;> cases bf <;> cases cm <;> cases cf <;> cases be <;> cases ce <;>
    refine ⟨fun h => ?_, fun h => ?_, fun h => ?_, fun m h => ?_, fun f h => ?_,
      fun h => ?_, fun h => ?_, fun h => ?_, fun h => ?_, fun m h => ?_,
      fun f h => ?_, fun h => ?_⟩ <;>
    simp_all [serializeCreateBody, serializeConfigureBody]

/-- C5, witness: concrete payloads — a Create body with everything absent
emits only `host` and `customer_id`; one with everything present emits all
five fields; a Configure body with everything absent emits nothing. -/
theorem wasp_C5_witness :
    "module" ∉ (serializeCreateBody ⟨"h", "c", none, none, []⟩).map Prod.fst
    ∧ ("module", .vstr "m_42")
        ∈ serializeCreateBody ⟨"h", "c", some "m_42", some "run", [("FOO", .str "bar")]⟩
    ∧ "env" ∉ (serializeConfigureBody ⟨none, none, []⟩).map Prod.fst :=
  ⟨(wasp_C5_omitted_fields ⟨"h", "c", none, none, []⟩ ⟨none, none, []⟩).1 rfl,
   ((wasp_C5_omitted_fields
      ⟨"h", "c", some "m_42", some "run", [("FOO", .str "bar")]⟩
      ⟨none, none, []⟩).2.2.2.1) "m_42" rfl,
   ((wasp_C5_omitted_fields ⟨"h", "c", none, none, []⟩
      ⟨none, none, []⟩).2.2.2.2.2.2.2.2.1) rfl⟩

/-! ## Claims about the env map of the wire payloads (C9) -/

/-- Inserting at a key leaves exactly the inserted pair under that key,
provided the map held at most one pair under it before (the invariant
`collectEnv` maintains). -/
theorem filter_hashMapInsert_self (m : List (String × JValue)) (name : String)
    (v : JValue)
    (hm : m.filter (fun p => p.1 == name) = []
      ∨ ∃ w, m.filter (fun p => p.1 == name) = [(name, w)]) :
    (hashMapInsert m name v).filter (fun p => p.1 == name) = [(name, v)] := by
  rw [hashMapInsert]
  by_cases ha : m.any (fun p => p.1 == name)
  · rw [if_pos ha, List.filter_map]
    have hcong : m.filter ((fun p : String × JValue => p.1 == name)
          ∘ fun p => if p.1 == name then (name, v) else p)
        = m.filter (fun p => p.1 == name) := by
      refine List.filter_congr fun p _ => ?_
      by_cases hp : (p.1 == name) = true
      · simp only [Function.comp_apply, if_pos hp, hp]
        exact beq_self_eq_true name
      · simp only [Function.comp_apply, if_neg hp]
    rw [hcong]
    rcases hm with hm | ⟨w, hm⟩
    · obtain ⟨x, hxm, hx⟩ := List.any_eq_true.mp ha
      exact absurd hx (List.filter_eq_nil_iff.mp hm x hxm)
    · rw [hm]
      simp
  · rw [if_neg ha, List.filter_append]
    have hnil : m.filter (fun p => p.1 == name) = [] :=
      List.filter_eq_nil_iff.mpr fun a hma hpa =>
        ha (List.any_eq_true.mpr ⟨a, hma, hpa⟩)
    rw [hnil]
    simp

/-- Inserting at a different key does not change the pairs held under
`name`. -/
theorem filter_hashMapInsert_other (m : List (String × JValue)) (k : String)
    (v : JValue) (name : String) (hk : (k == name) = false) :
    (hashMapInsert m k v).filter (fun p => p.1 == name)
      = m.filter (fun p => p.1 == name) := by
  rw [hashMapInsert]
  by_cases ha : m.any (fun p => p.1 == k)
  · rw [if_pos ha, List.filter_map]
    have hcong : m.filter ((fun p : String × JValue => p.1 == name)
          ∘ fun p => if p.1 == k then (k, v) else p)
        = m.filter (fun p => p.1 == name) := by
      refine List.filter_congr fun p _ => ?_
      by_cases hp : (p.1 == k) = true
      · have hpk : p.1 = k := by simpa using hp
        simp only [Function.comp_apply, if_pos hp]
        show (k == name) = (p.1 == name)
        rw [hpk]
      · simp only [Function.comp_apply, if_neg hp]
    rw [hcong]
    refine List.map_congr_left (fun p hp => ?_) |>.trans (List.map_id _)
    have hpn : (p.1 == name) = true := (List.mem_filter.mp hp).2
    have hne : (p.1 == k) = false := by
      have h1 : p.1 = name := by simpa using hpn
      rw [h1]
      exact beq_eq_false_iff_ne.mpr (Ne.symm (beq_eq_false_iff_ne.mp hk))
    simp [hne]
  · rw [if_neg ha, List.filter_append]
    have hs : List.filter (fun p : String × JValue => p.1 == name) [(k, v)] = [] := by
      rw [List.filter_cons_of_neg (by simp [hk])]
      rfl
    rw [hs, List.append_nil]

/-- The pairs that `collectEnv`'s fold leaves under a given key: the last
pair of the input under that key when one occurs, otherwise whatever the
accumulator held — provided the accumulator held at most one pair under the
key. -/
theorem filter_foldl_insert (name : String) (l : List (String × JValue)) :
    ∀ m : List (String × JValue),
      (m.filter (fun p => p.1 == name) = []
        ∨ ∃ w, m.filter (fun p => p.1 == name) = [(name, w)]) →
      ((l.foldl (fun acc p => hashMapInsert acc p.1 p.2) m).filter
          (fun p => p.1 == name))
        = match (l.filter (fun p => p.1 == name)).getLast? with
          | some q => [(name, q.2)]
          | none => m.filter (fun p => p.1 == name) := by
  induction l with
  | nil => intro m _; rfl
  | cons p l' ih =>
    intro m hm
    rw [List.foldl_cons]
    by_cases hp : (p.1 == name) = true
    · have hp' : p.1 = name := by simpa using hp
      have hA : (hashMapInsert m p.1 p.2).filter (fun q => q.1 == name)
          = [(name, p.2)] := by
        rw [hp']; exact filter_hashMapInsert_self m name p.2 hm
      have hfc : List.filter (fun q : String × JValue => q.1 == name) (p :: l')
          = p :: List.filter (fun q : String × JValue => q.1 == name) l' :=
        List.filter_cons_of_pos hp
      rw [ih (hashMapInsert m p.1 p.2) (Or.inr ⟨p.2, hA⟩), hfc]
      cases hl' : l'.filter (fun q => q.1 == name) with
      | nil => simpa [hl'] using hA
      | cons a t =>
        obtain ⟨q, hq⟩ := Option.isSome_iff_exists.mp
          (List.getLast?_isSome.mpr (List.cons_ne_nil a t))
        rw [List.getLast?_cons_cons, hq]
    · have hpf : (p.1 == name) = false := by simpa using hp
      have hB : (hashMapInsert m p.1 p.2).filter (fun q => q.1 == name)
          = m.filter (fun q => q.1 == name) :=
        filter_hashMapInsert_other m p.1 p.2 name hpf
      have hfc : List.filter (fun q : String × JValue => q.1 == name) (p :: l')
          = List.filter (fun q : String × JValue => q.1 == name) l' :=
        List.filter_cons_of_neg hp
      rw [ih (hashMapInsert m p.1 p.2) (hB ▸ hm), hB, hfc]

/-- C9: in the bodies built by `create` and `configure`, the wire env map
contains, for every name, exactly the pairs the collected `--env` list
determines: when the name occurs among the parsed `--env` tokens, exactly
one entry for it, whose value comes from the last occurrence in argument
order; when it does not occur, no entry. -/
theorem wasp_C9_env_last_wins (fsExists : String → Bool)
    (uploadId : String → String) (host customer_id : String)
    (cfg : ConfigureOpts) (name : String) :
    ((createBody fsExists uploadId host customer_id cfg).1.env.filter
        (fun p => p.1 == name)
      = match (cfg.env.filter (fun p => p.1 == name)).getLast? with
        | some q => [(name, q.2)]
        | none => [])
    ∧ ((configureBody fsExists uploadId cfg).1.env.filter
        (fun p => p.1 == name)
      = match (cfg.env.filter (fun p => p.1 == name)).getLast? with
        | some q => [(name, q.2)]
        | none => []) := by
  have h := filter_foldl_insert name cfg.env [] (Or.inl rfl)
  exact ⟨h, h⟩

/-- C9, witness: with `--env A=1 --env B=2 --env A=3`, the wire env map
holds exactly one entry for `A`, carrying the value of the last
occurrence. -/
theorem wasp_C9_witness :
    (createBody (fun _ => false) (fun _ => "") "h" "c"
        ⟨none, none, [("A", .str "1"), ("B", .str "2"), ("A", .str "3")]⟩).1.env.filter
        (fun p => p.1 == "A")
      = [("A", .str "3")] := by
  rw [(wasp_C9_env_last_wins (fun _ => false) (fun _ => "") "h" "c"
    ⟨none, none, [("A", .str "1"), ("B", .str "2"), ("A", .str "3")]⟩ "A").1]
  rfl

end Wasp
